import Mathlib

/-!
Verification of the `streamer` repository: the server-side playback clock
model and command handlers (`src/server/src/stream.gateway.ts`), the HTTP
byte-range media controller (`src/server/src/stream.controller.ts`), and the
client-side drift reconciler (`useStreamPlayer`).

JavaScript numbers carried by wire payloads are embedded as `JsVal`
(a finite rational, or one of the non-finite values, or a non-number),
and finite arithmetic is carried out over `ℚ`.
-/

/-- A JavaScript runtime value as far as the handlers inspect it: a finite
number, one of the non-finite numbers, or anything that is not a number. -/
inductive JsVal where
  | num (q : ℚ)
  | nan
  | inf
  | negInf
  | other
deriving DecidableEq

/-- `isFiniteNumber` from `stream.gateway.ts` / `useStreamPlayer`:
`typeof value === 'number' && Number.isFinite(value)`. -/
def isFiniteNumber : JsVal → Bool
  | JsVal.num _ => true
  | _ => false

/-- The finite value of a `JsVal`, used only under an `isFiniteNumber` guard. -/
def jsNumVal : JsVal → ℚ
  | JsVal.num q => q
  | _ => 0

/-- `StreamState` from `stream.gateway.ts`: the authoritative session record. -/
structure StreamState where
  isPlaying : Bool
  currentTime : JsVal
  updatedAtMs : ℚ
deriving DecidableEq

/-- `SyncState` from `stream.gateway.ts`: the broadcast snapshot. -/
structure SyncState where
  isPlaying : Bool
  currentTime : ℚ
  serverTimeMs : ℚ
deriving DecidableEq

/-- `getEffectiveTime` (stream.gateway.ts lines 55-64): the checkpoint plus
the wall-clock time elapsed since it, clamped at zero. -/
def getEffectiveTime (st : StreamState) (nowMs : ℚ) : ℚ :=
  let baseTime : ℚ :=
    match st.currentTime with
    | JsVal.num q => q
    | _ => 0
  if st.isPlaying then max 0 (baseTime + max 0 ((nowMs - st.updatedAtMs) / 1000))
  else max 0 baseTime

/-- `commitTime` (stream.gateway.ts lines 66-69). -/
def commitTime (st : StreamState) (nowMs : ℚ) : StreamState :=
  { st with currentTime := JsVal.num (getEffectiveTime st nowMs), updatedAtMs := nowMs }

/-- `getSyncState` (stream.gateway.ts lines 71-77). -/
def getSyncState (st : StreamState) (nowMs : ℚ) : SyncState :=
  { isPlaying := st.isPlaying
    currentTime := getEffectiveTime st nowMs
    serverTimeMs := nowMs }

/-- `handlePlay` (stream.gateway.ts lines 85-101). Returns the new state and
whether a broadcast was emitted (`handlePlay` always broadcasts). -/
def handlePlay (time : JsVal) (nowMs : ℚ) (st : StreamState) : StreamState × Bool :=
  let st1 :=
    match time with
    | JsVal.num t => { st with currentTime := JsVal.num (max 0 t), updatedAtMs := nowMs }
    | _ => commitTime st nowMs
  ({ st1 with isPlaying := true, updatedAtMs := nowMs }, true)

/-- `handlePause` (stream.gateway.ts lines 103-119). -/
def handlePause (time : JsVal) (nowMs : ℚ) (st : StreamState) : StreamState × Bool :=
  let st1 :=
    match time with
    | JsVal.num t => { st with currentTime := JsVal.num (max 0 t), updatedAtMs := nowMs }
    | _ => commitTime st nowMs
  ({ st1 with isPlaying := false, updatedAtMs := nowMs }, true)

/-- `handleSeek` (stream.gateway.ts lines 121-129): non-finite payloads are
dropped with no mutation and no broadcast. -/
def handleSeek (time : JsVal) (nowMs : ℚ) (st : StreamState) : StreamState × Bool :=
  match time with
  | JsVal.num t =>
      ({ st with currentTime := JsVal.num (max 0 t), updatedAtMs := nowMs }, true)
  | _ => (st, false)

/-- The inbound events the gateway reacts to; `tick` is the periodic
broadcast timer and `sync` the unicast snapshot request, neither of which
mutates state. Each event carries the `Date.now()` observed when handled. -/
inductive GatewayEvent where
  | play (time : JsVal) (nowMs : ℚ)
  | pause (time : JsVal) (nowMs : ℚ)
  | seek (time : JsVal) (nowMs : ℚ)
  | sync (nowMs : ℚ)
  | tick (nowMs : ℚ)
deriving DecidableEq

/-- The state transition of one gateway event. -/
def stepState (st : StreamState) (e : GatewayEvent) : StreamState :=
  match e with
  | GatewayEvent.play t n => (handlePlay t n st).1
  | GatewayEvent.pause t n => (handlePause t n st).1
  | GatewayEvent.seek t n => (handleSeek t n st).1
  | GatewayEvent.sync _ => st
  | GatewayEvent.tick _ => st

/-- The gateway's initial state (stream.gateway.ts lines 36-40). -/
def initialState (startupMs : ℚ) : StreamState :=
  { isPlaying := false, currentTime := JsVal.num 0, updatedAtMs := startupMs }

/-- Run a sequence of gateway events from the initial state. -/
def runEvents (startupMs : ℚ) (es : List GatewayEvent) : StreamState :=
  es.foldl stepState (initialState startupMs)

/-! ## The HTTP byte-range media controller -/

/-- Decimal digit test used by the `Number.parseInt(_, 10)` model. -/
def isDigitChar (c : Char) : Bool := decide (48 ≤ c.toNat ∧ c.toNat ≤ 57)

/-- Whitespace skipped by `Number.parseInt` before the number. -/
def isSpaceChar (c : Char) : Bool := c == ' ' || c == '\t' || c == '\n' || c == '\r'

/-- The numeric value of a string of decimal digits. -/
def digitsVal (cs : List Char) : ℕ :=
  cs.foldl (fun a c => 10 * a + (c.toNat - 48)) 0

/-- The longest leading run of decimal digits, or `none` when there is none. -/
def parseDigits (cs : List Char) : Option ℕ :=
  let ds := cs.takeWhile isDigitChar
  if ds.isEmpty then none else some (digitsVal ds)

/-- `Number.parseInt(s, 10)`: skip leading whitespace, an optional sign, then
as many decimal digits as possible; `none` models `NaN` (no digits). -/
def parseIntJS (cs : List Char) : Option ℤ :=
  match cs.dropWhile isSpaceChar with
  | [] => none
  | c :: rest =>
      if c = '-' then (parseDigits rest).map (fun n => -(n : ℤ))
      else if c = '+' then (parseDigits rest).map (fun n => (n : ℤ))
      else (parseDigits (c :: rest)).map (fun n => (n : ℤ))

/-- JavaScript `String.prototype.split` with a single-character separator. -/
def jsSplitOn (sep : Char) : List Char → List (List Char)
  | [] => [[]]
  | c :: rest =>
      let r := jsSplitOn sep rest
      if c = sep then [] :: r
      else (c :: r.headD []) :: r.tail

/-- A response body: a plain-text message, a byte stream, or empty. -/
inductive HttpBody where
  | text (msg : String)
  | bytes (bs : List ℕ)
  | empty
deriving DecidableEq

/-- An HTTP response as the controller builds it: status code, the headers it
explicitly sets (in order), and the body. -/
structure HttpResponse where
  status : ℕ
  headers : List (String × String)
  body : HttpBody
deriving DecidableEq

/-- The characters of the literal `'bytes='` checked by
`range.startsWith('bytes=')` and removed by `range.replace('bytes=', '')`. -/
def bytesEqMark : List Char := ['b', 'y', 't', 'e', 's', '=']

/-- The 416 response (stream.controller.ts lines 41-48, 57-67, 75-82):
`Access-Control-Allow-Origin` then `Content-Range: bytes */<size>`, empty
body. -/
def range416 (fileSize : ℕ) : HttpResponse :=
  { status := 416
    headers := [("Access-Control-Allow-Origin", "*"),
                ("Content-Range", "bytes */" ++ Nat.repr fileSize)]
    body := HttpBody.empty }

/-- Lines 50-73 of stream.controller.ts: parse the range after `bytes=` and
resolve `(start, end)`; `none` is the 416 taken when the suffix length fails
to parse. -/
def resolveRange (fileSize : ℕ) (tail : List Char) : Option (ℤ × ℤ) :=
  let parts := jsSplitOn '-' tail
  let startStr := parts.headD []
  let endParsed : Option ℤ :=
    match parts[1]? with
    | some s => parseIntJS s
    | none => none
  match parseIntJS startStr with
  | none =>
      match endParsed with
      | none => none
      | some suffixLength =>
          some (max ((fileSize : ℤ) - suffixLength) 0, (fileSize : ℤ) - 1)
  | some start =>
      match endParsed with
      | none => some (start, (fileSize : ℤ) - 1)
      | some e => some (start, e)

/-- The 206 partial-content response (stream.controller.ts lines 84-94):
`createReadStream(path, {start, end})` streams bytes `start..end` inclusive. -/
def serve206 (data : List ℕ) (s e : ℤ) : HttpResponse :=
  { status := 206
    headers := [("Access-Control-Allow-Origin", "*"),
                ("Content-Range",
                  "bytes " ++ toString s ++ "-" ++ toString e ++ "/"
                    ++ Nat.repr data.length),
                ("Accept-Ranges", "bytes"),
                ("Content-Length", toString (e - s + 1)),
                ("Content-Type", "video/mp4")]
    body := HttpBody.bytes ((data.drop s.toNat).take (e - s + 1).toNat) }

/-- The `stream` handler of `StreamController`. `file` is `none` when
`statSync` throws (missing file), otherwise the file's bytes; `range` is the
request's `Range` header when present. -/
def stream (file : Option (List ℕ)) (range : Option (List Char)) : HttpResponse :=
  match file with
  | none =>
      { status := 404, headers := [], body := HttpBody.text "Video file not found." }
  | some data =>
      let fileSize := data.length
      match range with
      | none =>
          { status := 200
            headers := [("Access-Control-Allow-Origin", "*"),
                        ("Content-Type", "video/mp4"),
                        ("Content-Length", Nat.repr fileSize),
                        ("Accept-Ranges", "bytes")]
            body := HttpBody.bytes data }
      | some r =>
          if bytesEqMark.isPrefixOf r then
            match resolveRange fileSize (r.drop 6) with
            | none => range416 fileSize
            | some (s, e) =>
                if s < 0 ∨ e ≥ (fileSize : ℤ) ∨ s > e then range416 fileSize
                else serve206 data s e
          else range416 fileSize

/-- The spec's 206 success response at natural-number bounds `s ≤ e <
data.length`: exactly the claimed headers and exactly the bytes `[s, e]`. -/
def rangeOkResponse (data : List ℕ) (s e : ℕ) : HttpResponse :=
  { status := 206
    headers := [("Access-Control-Allow-Origin", "*"),
                ("Content-Range",
                  "bytes " ++ Nat.repr s ++ "-" ++ Nat.repr e ++ "/"
                    ++ Nat.repr data.length),
                ("Accept-Ranges", "bytes"),
                ("Content-Length", Nat.repr (e - s + 1)),
                ("Content-Type", "video/mp4")]
    body := HttpBody.bytes ((data.drop s).take (e - s + 1)) }

/-! ## The client reconciler (`useStreamPlayer`) -/

/-- The stored last snapshot on the client (`lastSyncStateRef`): `serverTimeMs`
is optional on the wire and stored unvalidated, hence a `JsVal`. -/
structure ClientSyncRecord where
  isPlaying : Bool
  currentTime : ℚ
  serverTimeMs : JsVal
  receivedAtMs : ℚ
deriving DecidableEq

/-- The local media element as the reconciler reads and writes it. -/
structure VideoState where
  currentTime : ℚ
  paused : Bool
  seeking : Bool
  duration : ℚ
deriving DecidableEq

/-- `clamp` from `useStreamPlayer`. -/
def jsClamp (value lo hi : ℚ) : ℚ := min hi (max lo value)

/-- `seekTo` from `useStreamPlayer`: clamp into `[0, durationRef.current ||
time]` and emit a `seek` command iff `broadcast`. -/
def seekToVideo (video : VideoState) (time : ℚ) (broadcast : Bool) :
    VideoState × Option ℚ :=
  let clampedTime := jsClamp time 0 (if video.duration = 0 then time else video.duration)
  ({ video with currentTime := clampedTime },
   if broadcast then some clampedTime else none)

/-- `play` from `useStreamPlayer`: start playback and emit a `play` command
carrying the current position iff `broadcast`. -/
def playVideo (video : VideoState) (broadcast : Bool) : VideoState × Option ℚ :=
  ({ video with paused := false }, if broadcast then some video.currentTime else none)

/-- `pause` from `useStreamPlayer`: pause and emit a `pause` command carrying
the current position iff `broadcast`. -/
def pauseVideo (video : VideoState) (broadcast : Bool) : VideoState × Option ℚ :=
  ({ video with paused := true }, if broadcast then some video.currentTime else none)

/-- The authoritative target position, as computed identically in
`handleSyncState` and in the pull-path interval of `useStreamPlayer`. -/
def reconcileTarget (rec : ClientSyncRecord) (nowMs : ℚ) : ℚ :=
  if rec.isPlaying && isFiniteNumber rec.serverTimeMs then
    rec.currentTime + max 0 ((nowMs - jsNumVal rec.serverTimeMs) / 1000)
  else rec.currentTime

/-- The outcome of one reconciliation pass: the updated player and the
commands (if any) sent to the server. -/
structure ReconcileResult where
  video : VideoState
  seekCmd : Option ℚ
  playCmd : Option ℚ
  pauseCmd : Option ℚ
deriving DecidableEq

/-- One reconciliation pass, the shared body of `handleSyncState` and the
pull-path interval: drift correction via `seekTo` with `broadcast:false`,
then play/pause reconciliation, also without broadcasting. -/
def reconcile (rec : ClientSyncRecord) (nowMs : ℚ) (video : VideoState) :
    ReconcileResult :=
  let targetTime := reconcileTarget rec nowMs
  let seekStep :=
    if video.seeking = false ∧ |targetTime - video.currentTime| > 1 / 10 then
      seekToVideo video targetTime false
    else (video, none)
  let v1 := seekStep.1
  let playStep :=
    if rec.isPlaying = true ∧ v1.paused = true then playVideo v1 false else (v1, none)
  let v2 := playStep.1
  let pauseStep :=
    if rec.isPlaying = false ∧ v2.paused = false then pauseVideo v2 false
    else (v2, none)
  { video := pauseStep.1
    seekCmd := seekStep.2
    playCmd := playStep.2
    pauseCmd := pauseStep.2 }

/-! ## Theorems: the clock model and command handlers -/

theorem getEffectiveTime_nonneg (st : StreamState) (nowMs : ℚ) :
    0 ≤ getEffectiveTime st nowMs := by
  unfold getEffectiveTime
  split <;> dsimp only <;> split <;> exact le_max_left 0 _

theorem getEffectiveTime_at_checkpoint (p : Bool) (q nowMs : ℚ) (h : 0 ≤ q) :
    getEffectiveTime ⟨p, JsVal.num q, nowMs⟩ nowMs = q := by
  cases p <;> simp [getEffectiveTime, max_eq_right, h]

/-- C1: for a session state with a finite checkpoint, `getEffectiveTime` is
`max(0, currentTime)` when paused, and `max(0, currentTime + max(0, (now -
updatedAt)/1000))` when playing, so negative elapsed time is floored to zero
and never subtracted. -/
theorem effectiveTime_formula (st : StreamState) (q nowMs : ℚ)
    (h : st.currentTime = JsVal.num q) :
    (st.isPlaying = false → getEffectiveTime st nowMs = max 0 q) ∧
    (st.isPlaying = true →
      getEffectiveTime st nowMs
        = max 0 (q + max 0 ((nowMs - st.updatedAtMs) / 1000))) := by
  obtain ⟨p, ct, up⟩ := st
  cases h
  constructor <;> intro hp <;> cases hp <;> simp [getEffectiveTime]

/-- Witness for C1 at a concrete paused state. -/
theorem effectiveTime_formula_witness :
    getEffectiveTime ⟨false, JsVal.num 5, 0⟩ 7 = max 0 5 :=
  (effectiveTime_formula ⟨false, JsVal.num 5, 0⟩ 5 7 rfl).1 rfl

/-- C4: `handlePlay` with a finite payload `t` sets `currentTime = max(0,t)`
and `updatedAtMs = now`; with a non-finite or missing payload it commits the
existing checkpoint; in both cases it sets `isPlaying = true`, `updatedAtMs =
now` and broadcasts. `handlePause` does the same checkpoint logic and sets
`isPlaying = false`. -/
theorem play_pause_handler_spec (time : JsVal) (nowMs : ℚ) (st : StreamState) :
    (∀ t : ℚ, time = JsVal.num t →
      handlePlay time nowMs st =
        ({ isPlaying := true, currentTime := JsVal.num (max 0 t),
           updatedAtMs := nowMs }, true) ∧
      handlePause time nowMs st =
        ({ isPlaying := false, currentTime := JsVal.num (max 0 t),
           updatedAtMs := nowMs }, true)) ∧
    (isFiniteNumber time = false →
      handlePlay time nowMs st =
        ({ isPlaying := true, currentTime := JsVal.num (getEffectiveTime st nowMs),
           updatedAtMs := nowMs }, true) ∧
      handlePause time nowMs st =
        ({ isPlaying := false, currentTime := JsVal.num (getEffectiveTime st nowMs),
           updatedAtMs := nowMs }, true)) := by
  obtain ⟨p, ct, up⟩ := st
  constructor
  · rintro t rfl
    exact ⟨rfl, rfl⟩
  · intro hf
    cases time <;> simp_all [handlePlay, handlePause, commitTime, isFiniteNumber]

/-- Witness for C4: a concrete `play` with a finite payload. -/
theorem play_pause_handler_spec_witness :
    handlePlay (JsVal.num 5) 100 ⟨false, JsVal.num 0, 0⟩ =
      ({ isPlaying := true, currentTime := JsVal.num (max 0 5),
         updatedAtMs := 100 }, true) :=
  ((play_pause_handler_spec (JsVal.num 5) 100 ⟨false, JsVal.num 0, 0⟩).1 5 rfl).1

/-- C5: a `seek` whose payload is not a finite number leaves the state
untouched and emits no broadcast; a finite payload `t` sets
`currentTime = max(0,t)` and `updatedAtMs = now`, leaves `isPlaying`
unchanged, and broadcasts. -/
theorem seek_handler_spec (time : JsVal) (nowMs : ℚ) (st : StreamState) :
    (isFiniteNumber time = false → handleSeek time nowMs st = (st, false)) ∧
    (∀ t : ℚ, time = JsVal.num t →
      handleSeek time nowMs st =
        ({ isPlaying := st.isPlaying, currentTime := JsVal.num (max 0 t),
           updatedAtMs := nowMs }, true)) := by
  obtain ⟨p, ct, up⟩ := st
  constructor
  · intro hf
    cases time <;> simp_all [handleSeek, isFiniteNumber]
  · rintro t rfl
    rfl

/-- Witness for C5: a `seek` carrying `NaN` mutates nothing and stays silent. -/
theorem seek_handler_spec_witness :
    handleSeek JsVal.nan 55 ⟨true, JsVal.num 3, 7⟩ = (⟨true, JsVal.num 3, 7⟩, false) :=
  (seek_handler_spec JsVal.nan 55 ⟨true, JsVal.num 3, 7⟩).1 rfl

theorem stepState_preserves (st : StreamState) (e : GatewayEvent)
    (h : ∃ q : ℚ, st.currentTime = JsVal.num q ∧ 0 ≤ q) :
    ∃ q : ℚ, (stepState st e).currentTime = JsVal.num q ∧ 0 ≤ q := by
  obtain ⟨q, hq, hq0⟩ := h
  cases e with
  | play t n =>
      cases t <;>
        exact ⟨_, rfl, by first | exact le_max_left 0 _ | exact getEffectiveTime_nonneg _ _⟩
  | pause t n =>
      cases t <;>
        exact ⟨_, rfl, by first | exact le_max_left 0 _ | exact getEffectiveTime_nonneg _ _⟩
  | seek t n =>
      cases t
      · exact ⟨_, rfl, le_max_left 0 _⟩
      all_goals exact ⟨q, hq, hq0⟩
  | sync n => exact ⟨q, hq, hq0⟩
  | tick n => exact ⟨q, hq, hq0⟩

/-- C7: from the initial state, after every sequence of gateway events the
stored `currentTime` is a finite number and never negative. -/
theorem currentTime_finite_nonneg (startupMs : ℚ) (es : List GatewayEvent) :
    ∃ q : ℚ, (runEvents startupMs es).currentTime = JsVal.num q ∧ 0 ≤ q := by
  have main : ∀ (l : List GatewayEvent) (st : StreamState),
      (∃ q : ℚ, st.currentTime = JsVal.num q ∧ 0 ≤ q) →
      ∃ q : ℚ, (l.foldl stepState st).currentTime = JsVal.num q ∧ 0 ≤ q := by
    intro l
    induction l with
    | nil => exact fun st h => h
    | cons e rest ih => exact fun st h => ih _ (stepState_preserves st e h)
  exact main es (initialState startupMs) ⟨0, rfl, le_refl 0⟩

/-- C9: committing at `now` and then taking a snapshot at the same `now`
yields the effective time computed on the pre-commit state: checkpointing is
idempotent with respect to the effective position. -/
theorem commit_then_snapshot (st : StreamState) (nowMs : ℚ) :
    (getSyncState (commitTime st nowMs) nowMs).currentTime
      = getEffectiveTime st nowMs := by
  have h0 := getEffectiveTime_nonneg st nowMs
  show getEffectiveTime (commitTime st nowMs) nowMs = getEffectiveTime st nowMs
  have hc : commitTime st nowMs =
      ⟨st.isPlaying, JsVal.num (getEffectiveTime st nowMs), nowMs⟩ := rfl
  rw [hc, getEffectiveTime_at_checkpoint _ _ _ h0]


/-! ## Theorems: the client reconciler -/

theorem reconcile_eq (rec : ClientSyncRecord) (nowMs : ℚ) (video : VideoState) :
    reconcile rec nowMs video =
      { video :=
          { currentTime :=
              if video.seeking = false ∧
                  |reconcileTarget rec nowMs - video.currentTime| > 1 / 10 then
                jsClamp (reconcileTarget rec nowMs) 0
                  (if video.duration = 0 then reconcileTarget rec nowMs
                   else video.duration)
              else video.currentTime
            paused := !rec.isPlaying
            seeking := video.seeking
            duration := video.duration }
        seekCmd := none
        playCmd := none
        pauseCmd := none } := by
  obtain ⟨vc, vp, vs, vd⟩ := video
  cases vs with
  | true =>
      cases hp : rec.isPlaying <;> cases vp <;>
        simp [reconcile, seekToVideo, playVideo, pauseVideo, hp]
  | false =>
      by_cases hd : (10 : ℚ)⁻¹ < |reconcileTarget rec nowMs - vc|
      · cases hp : rec.isPlaying <;> cases vp <;>
          simp [reconcile, seekToVideo, playVideo, pauseVideo, hp, hd]
      · cases hp : rec.isPlaying <;> cases vp <;>
          simp [reconcile, seekToVideo, playVideo, pauseVideo, hp, hd]

/-- Counterexample to C6 as stated: for the stored record
`{isPlaying := false, currentTime := 100, serverTimeMs := 0}` and a local
player at position 0, not mid-seek, with a known duration of 50 s, the drift
(100 s) exceeds the 0.1 s threshold, yet reconciliation sets the local
position to 50, not to the target 100: `seekTo` clamps the correction into
`[0, duration]`. -/
theorem reconcile_clamps_counterexample :
    (⟨0, true, false, 50⟩ : VideoState).seeking = false ∧
    reconcileTarget ⟨false, 100, JsVal.num 0, 0⟩ 0 = 100 ∧
    |reconcileTarget ⟨false, 100, JsVal.num 0, 0⟩ 0
        - (⟨0, true, false, 50⟩ : VideoState).currentTime| > 1 / 10 ∧
    (reconcile ⟨false, 100, JsVal.num 0, 0⟩ 0 ⟨0, true, false, 50⟩).video.currentTime
      = 50 ∧
    (reconcile ⟨false, 100, JsVal.num 0, 0⟩ 0 ⟨0, true, false, 50⟩).video.currentTime
      ≠ reconcileTarget ⟨false, 100, JsVal.num 0, 0⟩ 0 := by
  have ht : reconcileTarget ⟨false, 100, JsVal.num 0, 0⟩ 0 = 100 := rfl
  have hpos :
      (reconcile ⟨false, 100, JsVal.num 0, 0⟩ 0 ⟨0, true, false, 50⟩).video.currentTime
        = 50 := by
    rw [reconcile_eq]
    dsimp only
    rw [ht]
    norm_num [jsClamp, min_def, max_def]
  exact ⟨rfl, ht, by rw [ht]; norm_num, hpos, by rw [hpos, ht]; norm_num⟩

/-- C6 (amended): for a stored record with a numeric `serverTimeMs`,
reconciliation computes `target = isPlaying ? currentTime + max(0, (now -
serverTimeMs)/1000) : currentTime`; when the player is not mid-seek and the
drift exceeds 0.1 s it forces the local position to `target` clamped into
`[0, duration]` (to `target` itself when the duration is unknown/zero); and
the corrections it applies emit no seek, play, or pause command back to the
server. -/
theorem reconcile_spec (rec : ClientSyncRecord) (T nowMs : ℚ) (video : VideoState)
    (hs : rec.serverTimeMs = JsVal.num T) :
    reconcileTarget rec nowMs
      = (if rec.isPlaying then rec.currentTime + max 0 ((nowMs - T) / 1000)
         else rec.currentTime) ∧
    (video.seeking = false → |reconcileTarget rec nowMs - video.currentTime| > 1 / 10 →
      (reconcile rec nowMs video).video.currentTime
        = jsClamp (reconcileTarget rec nowMs) 0
            (if video.duration = 0 then reconcileTarget rec nowMs
             else video.duration)) ∧
    (reconcile rec nowMs video).seekCmd = none ∧
    (reconcile rec nowMs video).playCmd = none ∧
    (reconcile rec nowMs video).pauseCmd = none := by
  rw [reconcile_eq]
  refine ⟨?_, ?_, rfl, rfl, rfl⟩
  · rw [reconcileTarget, hs]
    cases hp : rec.isPlaying <;> simp [isFiniteNumber, jsNumVal]
  · intro h1 h2
    simp only [if_pos (And.intro h1 h2)]

/-- Witness for C6 (amended), at the spec's own example: record
`{isPlaying := true, currentTime := 10, serverTimeMs := 0}`, local clock 3000,
local position 10.05 with the duration not yet known: the target is 13 and the
correction fires without emitting a command. -/
theorem reconcile_spec_witness :
    (reconcile ⟨true, 10, JsVal.num 0, 0⟩ 3000 ⟨201 / 20, false, false, 0⟩).video.currentTime
        = 13 ∧
    (reconcile ⟨true, 10, JsVal.num 0, 0⟩ 3000 ⟨201 / 20, false, false, 0⟩).seekCmd
        = none := by
  have h := reconcile_spec ⟨true, 10, JsVal.num 0, 0⟩ 0 3000 ⟨201 / 20, false, false, 0⟩ rfl
  have ht : reconcileTarget ⟨true, 10, JsVal.num 0, 0⟩ 3000 = 13 := by
    rw [h.1]
    norm_num [max_def]
  refine ⟨?_, h.2.2.1⟩
  rw [h.2.1 rfl (by rw [ht]; rw [abs_of_pos (by norm_num)]; norm_num)]
  rw [ht]
  norm_num [jsClamp, min_def, max_def]

/-! ## Theorems: the media range controller -/

theorem digit_char_facts (c : Char) (h : isDigitChar c = true) :
    isSpaceChar c = false ∧ c ≠ '-' ∧ c ≠ '+' := by
  have h' := of_decide_eq_true h
  refine ⟨?_, ?_, ?_⟩
  · unfold isSpaceChar
    simp only [Bool.or_eq_false_iff, beq_eq_false_iff_ne, ne_eq]
    refine ⟨⟨⟨?_, ?_⟩, ?_⟩, ?_⟩ <;> rintro rfl <;> revert h' <;> decide
  · rintro rfl; revert h'; decide
  · rintro rfl; revert h'; decide

theorem dash_not_mem_digits (cs : List Char) (h : ∀ c ∈ cs, isDigitChar c = true) :
    '-' ∉ cs :=
  fun hm => absurd (h '-' hm) (by decide)

theorem parseDigits_all_digits (cs : List Char) (hne : cs ≠ [])
    (h : ∀ c ∈ cs, isDigitChar c = true) :
    parseDigits cs = some (digitsVal cs) := by
  unfold parseDigits
  rw [List.takeWhile_eq_self_iff.mpr h]
  rw [if_neg (by simp [List.isEmpty_iff, hne])]

theorem parseIntJS_all_digits (cs : List Char) (hne : cs ≠ [])
    (h : ∀ c ∈ cs, isDigitChar c = true) :
    parseIntJS cs = some ((digitsVal cs : ℕ) : ℤ) := by
  obtain ⟨c, rest, rfl⟩ := List.exists_cons_of_ne_nil hne
  obtain ⟨hsp, hdash, hplus⟩ := digit_char_facts c (h c (List.mem_cons_self c rest))
  unfold parseIntJS
  rw [List.dropWhile_cons, hsp]
  simp only [Bool.false_eq_true, if_false]
  rw [if_neg hdash, if_neg hplus, parseDigits_all_digits _ hne h]
  rfl

theorem parseIntJS_nil : parseIntJS [] = none := rfl

theorem jsSplitOn_no_sep (sep : Char) (b : List Char) (hb : sep ∉ b) :
    jsSplitOn sep b = [b] := by
  induction b with
  | nil => rfl
  | cons c rest ih =>
      have hc : c ≠ sep := fun e => hb (e ▸ List.mem_cons_self c rest)
      have hrest : sep ∉ rest := fun hm => hb (List.mem_cons_of_mem c hm)
      simp [jsSplitOn, hc, ih hrest]

theorem jsSplitOn_append (sep : Char) (a b : List Char) (ha : sep ∉ a) :
    jsSplitOn sep (a ++ sep :: b) = a :: jsSplitOn sep b := by
  induction a with
  | nil => simp [jsSplitOn]
  | cons c a' ih =>
      have hc : c ≠ sep := fun e => ha (e ▸ List.mem_cons_self c a')
      have ha' : sep ∉ a' := fun hm => ha (List.mem_cons_of_mem c hm)
      simp [jsSplitOn, hc, ih ha']

theorem resolveRange_explicit (n : ℕ) (a b : List Char) (ha : '-' ∉ a)
    (hb : '-' ∉ b) :
    resolveRange n (a ++ '-' :: b) =
      match parseIntJS a, parseIntJS b with
      | none, none => none
      | none, some k => some (max ((n : ℤ) - k) 0, (n : ℤ) - 1)
      | some s, none => some (s, (n : ℤ) - 1)
      | some s, some e => some (s, e) := by
  unfold resolveRange
  rw [jsSplitOn_append '-' a b ha, jsSplitOn_no_sep '-' b hb]
  cases ha' : parseIntJS a <;> cases hb' : parseIntJS b <;> simp [ha', hb']

theorem resolveRange_suffix (n : ℕ) (b : List Char) (hb : '-' ∉ b) :
    resolveRange n ('-' :: b) =
      match parseIntJS b with
      | none => none
      | some k => some (max ((n : ℤ) - k) 0, (n : ℤ) - 1) := by
  have h : ('-' :: b : List Char) = [] ++ '-' :: b := rfl
  rw [h, resolveRange_explicit n [] b (by simp) hb]
  cases parseIntJS b <;> rfl

theorem stream_bytes_tail (data : List ℕ) (tail : List Char) :
    stream (some data) (some (bytesEqMark ++ tail)) =
      match resolveRange data.length tail with
      | none => range416 data.length
      | some (s, e) =>
          if s < 0 ∨ e ≥ (data.length : ℤ) ∨ s > e then range416 data.length
          else serve206 data s e := by
  unfold stream
  dsimp only
  rw [if_pos (by simp [bytesEqMark, List.isPrefixOf] : bytesEqMark.isPrefixOf (bytesEqMark ++ tail) = true)]
  rw [show List.drop 6 (bytesEqMark ++ tail) = tail from rfl]

theorem serve206_eq_rangeOk (data : List ℕ) (s e : ℕ) (hse : s ≤ e) :
    serve206 data (s : ℤ) (e : ℤ) = rangeOkResponse data s e := by
  unfold serve206 rangeOkResponse
  have h3 : ((e : ℤ) - s + 1) = ((e - s + 1 : ℕ) : ℤ) := by omega
  rw [h3]
  have h5 : (((e - s + 1 : ℕ) : ℤ)).toNat = e - s + 1 := rfl
  have h6 : ((s : ℤ)).toNat = s := rfl
  rw [h5, h6]
  rfl

/-- C2: on an existing file, a satisfiable Range header of the form
`bytes=start-end`, `bytes=start-` (end taken as `fileSize-1`), or
`bytes=-suffixLength` (start taken as `max(fileSize - suffixLength, 0)`, end
as `fileSize-1`) whose resolved bounds satisfy `0 ≤ start ≤ end < fileSize`
yields a 206 with `Content-Range: bytes <start>-<end>/<fileSize>`,
`Accept-Ranges: bytes`, `Content-Length = end-start+1`,
`Content-Type: video/mp4`, and exactly the bytes `[start, end]` inclusive;
`a` and `b` range over arbitrary decimal numerals. -/
theorem range_request_success (data : List ℕ) (a b : List Char)
    (ha : a ≠ []) (had : ∀ c ∈ a, isDigitChar c = true)
    (hb : b ≠ []) (hbd : ∀ c ∈ b, isDigitChar c = true) :
    (digitsVal a ≤ digitsVal b → digitsVal b < data.length →
      stream (some data) (some (bytesEqMark ++ (a ++ '-' :: b)))
        = rangeOkResponse data (digitsVal a) (digitsVal b)) ∧
    (digitsVal a < data.length →
      stream (some data) (some (bytesEqMark ++ (a ++ '-' :: [])))
        = rangeOkResponse data (digitsVal a) (data.length - 1)) ∧
    (1 ≤ digitsVal b → 1 ≤ data.length →
      stream (some data) (some (bytesEqMark ++ ('-' :: b)))
        = rangeOkResponse data (data.length - digitsVal b) (data.length - 1)) := by
  have hadash := dash_not_mem_digits a had
  have hbdash := dash_not_mem_digits b hbd
  have hpa := parseIntJS_all_digits a ha had
  have hpb := parseIntJS_all_digits b hb hbd
  refine ⟨?_, ?_, ?_⟩
  · intro h1 h2
    rw [stream_bytes_tail, resolveRange_explicit _ _ _ hadash hbdash, hpa, hpb]
    dsimp only
    rw [if_neg (by omega)]
    exact serve206_eq_rangeOk data _ _ h1
  · intro h1
    rw [stream_bytes_tail, resolveRange_explicit _ _ _ hadash (by simp), hpa,
      parseIntJS_nil]
    dsimp only
    have he : ((data.length : ℤ) - 1) = ((data.length - 1 : ℕ) : ℤ) := by omega
    rw [he, if_neg (by omega)]
    exact serve206_eq_rangeOk data _ _ (by omega)
  · intro h1 h2
    rw [stream_bytes_tail, resolveRange_suffix _ _ hbdash, hpb]
    dsimp only
    have hstart : max ((data.length : ℤ) - (digitsVal b : ℕ)) 0
        = ((data.length - digitsVal b : ℕ) : ℤ) := by
      rcases le_total (digitsVal b) data.length with h | h
      · rw [max_eq_left (by omega)]; omega
      · rw [max_eq_right (by omega)]; omega
    have he : ((data.length : ℤ) - 1) = ((data.length - 1 : ℕ) : ℤ) := by omega
    rw [hstart, he, if_neg (by omega)]
    exact serve206_eq_rangeOk data _ _ (by omega)

/-- Witness for C2: `bytes=2-5` on a 10-byte file. -/
theorem range_request_success_witness :
    stream (some [10, 11, 12, 13, 14, 15, 16, 17, 18, 19])
        (some (bytesEqMark ++ (['2'] ++ '-' :: ['5'])))
      = rangeOkResponse [10, 11, 12, 13, 14, 15, 16, 17, 18, 19] 2 5 :=
  (range_request_success [10, 11, 12, 13, 14, 15, 16, 17, 18, 19] ['2'] ['5']
    (by decide) (by decide) (by decide) (by decide)).1 (by decide) (by decide)

/-- C3: on an existing file, a Range header that does not start with
`bytes=`, a suffix form whose length fails to parse, or resolved bounds
violating `0 ≤ start ≤ end < fileSize` each yield the 416 response with
`Content-Range: bytes */<fileSize>` and an empty body; every response on an
existing file is a 200, 206 or 416, never a 5xx. -/
theorem range_request_malformed (data : List ℕ) (r : List Char) :
    (bytesEqMark.isPrefixOf r = false →
        stream (some data) (some r) = range416 data.length) ∧
    (bytesEqMark.isPrefixOf r = true →
        resolveRange data.length (r.drop 6) = none →
        stream (some data) (some r) = range416 data.length) ∧
    (∀ s e : ℤ, bytesEqMark.isPrefixOf r = true →
        resolveRange data.length (r.drop 6) = some (s, e) →
        ¬(0 ≤ s ∧ s ≤ e ∧ e < (data.length : ℤ)) →
        stream (some data) (some r) = range416 data.length) ∧
    ((stream (some data) (some r)).status = 206 ∨
      (stream (some data) (some r)).status = 416) ∧
    (stream (some data) none).status = 200 := by
  refine ⟨?_, ?_, ?_, ?_, rfl⟩
  · intro h
    unfold stream
    dsimp only
    rw [if_neg (by simp [h])]
  · intro h1 h2
    unfold stream
    dsimp only
    rw [if_pos h1, h2]
  · intro s e h1 h2 h3
    unfold stream
    dsimp only
    rw [if_pos h1, h2]
    dsimp only
    rw [if_pos (by omega)]
  · unfold stream
    dsimp only
    by_cases hp : bytesEqMark.isPrefixOf r = true
    · rw [if_pos hp]
      cases hres : resolveRange data.length (r.drop 6) with
      | none => right; rfl
      | some se =>
          obtain ⟨s, e⟩ := se
          dsimp only
          by_cases hbad : s < 0 ∨ e ≥ (data.length : ℤ) ∨ s > e
          · rw [if_pos hbad]; right; rfl
          · rw [if_neg hbad]; left; rfl
    · rw [if_neg hp]; right; rfl

/-- Witness for C3: a Range header not of the `bytes=` form. -/
theorem range_request_malformed_witness :
    stream (some [0]) (some ['x']) = range416 1 :=
  (range_request_malformed [0] ['x']).1 (by decide)

/-- Counterexample to C8 as stated: the 404 missing-file response sets no
headers at all, in particular not `Access-Control-Allow-Origin: *` — the
controller returns before `corsHeaders` is even constructed. -/
theorem cors_missing_on_404 :
    (stream none none).status = 404 ∧
    ("Access-Control-Allow-Origin", "*") ∉ (stream none none).headers := by
  exact ⟨rfl, by simp [stream]⟩

/-- C8 (amended): every response on an existing file — 200 full-content, 206
partial-content, and every 416 variant — carries
`Access-Control-Allow-Origin: *`; the 404 missing-file response does not. -/
theorem cors_on_all_file_branches (data : List ℕ) (range : Option (List Char)) :
    ("Access-Control-Allow-Origin", "*") ∈ (stream (some data) range).headers ∧
    ("Access-Control-Allow-Origin", "*") ∉ (stream none range).headers := by
  constructor
  · cases range with
    | none => simp [stream]
    | some r =>
        unfold stream
        dsimp only
        by_cases hp : bytesEqMark.isPrefixOf r = true
        · rw [if_pos hp]
          cases hres : resolveRange data.length (r.drop 6) with
          | none => simp [range416]
          | some se =>
              obtain ⟨s, e⟩ := se
              dsimp only
              by_cases hbad : s < 0 ∨ e ≥ (data.length : ℤ) ∨ s > e
              · rw [if_pos hbad]; simp [range416]
              · rw [if_neg hbad]; simp [serve206]
        · rw [if_neg hp]; simp [range416]
  · cases range <;> simp [stream]

/-- C10: `bytes=<start>-<end>` where `<start>` is a decimal numeral with
`start < fileSize` but `<end>` fails to parse (for instance `bytes=5-abc`)
is not rejected with 416: the end is treated as omitted and the response is
a 206 serving bytes `start` through `fileSize - 1`. -/
theorem end_parse_failure_serves_rest (data : List ℕ) (a b : List Char)
    (ha : a ≠ []) (had : ∀ c ∈ a, isDigitChar c = true)
    (hbdash : '-' ∉ b) (hbp : parseIntJS b = none)
    (hse : digitsVal a < data.length) :
    stream (some data) (some (bytesEqMark ++ (a ++ '-' :: b)))
      = rangeOkResponse data (digitsVal a) (data.length - 1) ∧
    (stream (some data) (some (bytesEqMark ++ (a ++ '-' :: b)))).status ≠ 416 := by
  have hmain : stream (some data) (some (bytesEqMark ++ (a ++ '-' :: b)))
      = rangeOkResponse data (digitsVal a) (data.length - 1) := by
    rw [stream_bytes_tail, resolveRange_explicit _ _ _ (dash_not_mem_digits a had)
      hbdash, parseIntJS_all_digits a ha had, hbp]
    dsimp only
    have he : ((data.length : ℤ) - 1) = ((data.length - 1 : ℕ) : ℤ) := by omega
    rw [he, if_neg (by omega)]
    exact serve206_eq_rangeOk data _ _ (by omega)
  exact ⟨hmain, by rw [hmain]; simp [rangeOkResponse]⟩

/-- Witness for C10: `bytes=5-abc` on a 10-byte file serves bytes 5-9. -/
theorem end_parse_failure_serves_rest_witness :
    stream (some [0, 1, 2, 3, 4, 5, 6, 7, 8, 9])
        (some (bytesEqMark ++ (['5'] ++ '-' :: ['a', 'b', 'c'])))
      = rangeOkResponse [0, 1, 2, 3, 4, 5, 6, 7, 8, 9] 5 9 :=
  (end_parse_failure_serves_rest [0, 1, 2, 3, 4, 5, 6, 7, 8, 9] ['5'] ['a', 'b', 'c']
    (by decide) (by decide) (by decide) (by decide) (by decide)).1
